/-
Verification of the LifeHackAI core against its specification.

The Python modules `backend/plans.py`, `backend/tasks.py`, `ai_agent/agent.py`,
`automation/runners/budget_automation.py` and
`automation/runners/productivity_automation.py` are shallowly embedded below.
Timestamps (Python `datetime` values serialised as ISO-8601 strings) are
modelled as integers counting minutes, which preserves both the ordering and
the `timedelta(minutes=...)` arithmetic the code performs on them; Python
floats are modelled as exact rationals; file-writing and logging side effects
are outside the model.
-/
import Mathlib

namespace LifeHackAI

/-! ### Offset parsing (`backend/plans.py`, `parse_due_offset`) -/

/-- Folds a list of decimal-digit characters into the number they denote,
most significant digit first (the accumulator loop Python's `int` performs). -/
def digitsToNat (cs : List Char) : Nat :=
  cs.foldl (fun n c => n * 10 + (c.toNat - 48)) 0

/-- Embedding of Python `int(s)` on the strings this repository feeds it: an
optional sign followed by at least one decimal digit succeeds, anything else
raises `ValueError` (modelled as `none`).  Python's additional tolerance for
surrounding whitespace and digit-group underscores is not exercised here. -/
def pyInt (cs : List Char) : Option Int :=
  match cs with
  | [] => none
  | c :: rest =>
    if c = '-' then
      if !rest.isEmpty && rest.all (·.isDigit) then some (-(digitsToNat rest : Int)) else none
    else if c = '+' then
      if !rest.isEmpty && rest.all (·.isDigit) then some (digitsToNat rest : Int) else none
    else if (c :: rest).all (·.isDigit) then some (digitsToNat (c :: rest) : Int)
    else none

/-- Embedding of `parse_due_offset` (`backend/plans.py`, lines 99-119):
`unit = offset[-1]` (raises `IndexError` on the empty string, modelled as
`none`), `value = int(offset[:-1])`, then `h`→×60, `d`→×24×60, `w`→×7×24×60,
any other trailing character → the stripped prefix is returned as raw
minutes. -/
def parse_due_offset (offset : String) : Option Int :=
  match offset.data.getLast? with
  | none => none
  | some unit =>
    match pyInt offset.data.dropLast with
    | none => none
    | some value =>
      if unit = 'h' then some (value * 60)
      else if unit = 'd' then some (value * 24 * 60)
      else if unit = 'w' then some (value * 7 * 24 * 60)
      else some value

/-- The standard base-10 digit string of a natural number, most significant
digit first (what the claims call "the decimal digits of n"). -/
def decimalDigits (n : Nat) : List Char :=
  if _h : n < 10 then [Nat.digitChar n]
  else decimalDigits (n / 10) ++ [Nat.digitChar (n % 10)]
termination_by n
decreasing_by exact Nat.div_lt_self (by omega) (by omega)

theorem digitChar_toNat {d : Nat} (h : d < 10) : (Nat.digitChar d).toNat = 48 + d := by
  interval_cases d <;> decide

theorem digitChar_isDigit {d : Nat} (h : d < 10) : (Nat.digitChar d).isDigit = true := by
  interval_cases d <;> decide

theorem digitsToNat_append (cs : List Char) (c : Char) :
    digitsToNat (cs ++ [c]) = 10 * digitsToNat cs + (c.toNat - 48) := by
  simp only [digitsToNat, List.foldl_append, List.foldl_cons, List.foldl_nil]
  omega

theorem decimalDigits_spec (n : Nat) :
    digitsToNat (decimalDigits n) = n ∧ decimalDigits n ≠ [] ∧
      (decimalDigits n).all (·.isDigit) = true := by
  induction n using decimalDigits.induct with
  | case1 n h =>
    rw [decimalDigits, dif_pos h]
    refine ⟨?_, by simp, ?_⟩
    · simp [digitsToNat, digitChar_toNat h]
    · simp [digitChar_isDigit h]
  | case2 n h ih =>
    rw [decimalDigits, dif_neg h]
    obtain ⟨ih1, _, ih3⟩ := ih
    have hm : n % 10 < 10 := Nat.mod_lt _ (by omega)
    refine ⟨?_, by simp, ?_⟩
    · rw [digitsToNat_append, ih1, digitChar_toNat hm]
      omega
    · simp only [List.all_append, ih3, Bool.true_and, List.all_cons, List.all_nil,
        Bool.and_true]
      exact digitChar_isDigit hm

theorem pyInt_decimalDigits (n : Nat) : pyInt (decimalDigits n) = some (n : Int) := by
  obtain ⟨h1, h2, h3⟩ := decimalDigits_spec n
  cases hd : decimalDigits n with
  | nil => exact absurd hd h2
  | cons c cs =>
    rw [hd] at h1 h3
    have hcdig : c.isDigit = true := by
      simp only [List.all_cons, Bool.and_eq_true] at h3
      exact h3.1
    have hctoNat : 48 ≤ c.toNat ∧ c.toNat ≤ 57 := by
      simp only [Char.isDigit, decide_eq_true_eq, Bool.and_eq_true] at hcdig
      exact ⟨hcdig.1, hcdig.2⟩
    have hne1 : c ≠ '-' := by
      intro hc; rw [hc] at hctoNat; simp at hctoNat
    have hne2 : c ≠ '+' := by
      intro hc; rw [hc] at hctoNat; simp at hctoNat
    simp only [pyInt, if_neg hne1, if_neg hne2, h3, if_pos, h1]

/-- C2: for every natural number `n` and unit `u ∈ {h, d, w}`, parsing the
string made of the decimal digits of `n` followed by `u` yields `n * 60`,
`n * 1440` and `n * 10080` minutes respectively. -/
theorem parse_due_offset_units (n : Nat) :
    parse_due_offset ⟨decimalDigits n ++ ['h']⟩ = some ((n : Int) * 60) ∧
    parse_due_offset ⟨decimalDigits n ++ ['d']⟩ = some ((n : Int) * 1440) ∧
    parse_due_offset ⟨decimalDigits n ++ ['w']⟩ = some ((n : Int) * 10080) := by
  have hp := pyInt_decimalDigits n
  refine ⟨?_, ?_, ?_⟩
  · simp only [parse_due_offset, List.getLast?_concat, List.dropLast_concat, hp,
      if_pos rfl, if_true]
  · simp only [parse_due_offset, List.getLast?_concat, List.dropLast_concat, hp,
      if_neg (by decide : ¬('d' = 'h')), if_pos rfl, if_true, Option.some.injEq]
    ring
  · simp only [parse_due_offset, List.getLast?_concat, List.dropLast_concat, hp,
      if_neg (by decide : ¬('w' = 'h')), if_neg (by decide : ¬('w' = 'd')),
      if_pos rfl, if_true, Option.some.injEq]
    ring

/-- C3 counterexample: the parser strips the trailing character even when it
is not a unit letter, so `"30"` parses as 3 minutes, not 30. -/
theorem parse_due_offset_strips_counterexample :
    parse_due_offset "30" = some 3 ∧ parse_due_offset "30" ≠ some 30 := by
  constructor <;> decide

/-- C3 amended: for every offset string whose trailing character is not one of
`h`, `d`, `w`, the parser still strips that trailing character and returns the
integer value of the remaining prefix, interpreted as raw minutes. -/
theorem parse_due_offset_no_unit (s : String) (c : Char) (v : Int)
    (hlast : s.data.getLast? = some c)
    (hh : c ≠ 'h') (hd : c ≠ 'd') (hw : c ≠ 'w')
    (hv : pyInt s.data.dropLast = some v) :
    parse_due_offset s = some v := by
  simp only [parse_due_offset, hlast, hv, if_neg hh, if_neg hd, if_neg hw]

/-- Witness for C3's amended theorem at the concrete input `"45x"`. -/
theorem parse_due_offset_no_unit_witness : parse_due_offset "45x" = some 45 :=
  parse_due_offset_no_unit "45x" 'x' 45 (by decide) (by decide) (by decide)
    (by decide) (by decide)

/-! ### Task storage (`backend/tasks.py`, `TaskManager`) -/

/-- A task dictionary as built by `TaskManager.add_task` (`backend/tasks.py`,
lines 32-38): exactly the keys `id`, `plan_id`, `title`, `due_at`, `status`.
No code path ever adds a `completed_at` key, which matters for the dashboard's
`task.get("completed_at", "")` lookup. -/
structure Task where
  id : Nat
  plan_id : Nat
  title : String
  due_at : Int
  status : String
deriving DecidableEq

/-- The in-memory store: the `tasks` list and the `next_id` counter. -/
structure TaskManager where
  tasks : List Task
  next_id : Nat
deriving DecidableEq

/-- `TaskManager.__init__`: empty list, counter starts at 1. -/
def TaskManager.init : TaskManager := ⟨[], 1⟩

/-- `TaskManager.add_task`: appends a task with the current counter value as
id and status `"pending"`, increments the counter, returns the new id. -/
def TaskManager.add_task (m : TaskManager) (plan_id : Nat) (title : String)
    (due_at : Int) : TaskManager × Nat :=
  (⟨m.tasks ++ [⟨m.next_id, plan_id, title, due_at, "pending"⟩], m.next_id + 1⟩,
    m.next_id)

/-- `TaskManager.get_task`: linear scan returning the first task with the
given id, or `None`. -/
def TaskManager.get_task (m : TaskManager) (task_id : Nat) : Option Task :=
  m.tasks.find? (fun t => t.id == task_id)

/-- Rewrites the status of the first task with the given id, as the in-place
mutation `task["status"] = status` does to the object `get_task` returned. -/
def setStatusFirst (task_id : Nat) (status : String) : List Task → List Task
  | [] => []
  | t :: ts =>
    if t.id == task_id then { t with status := status } :: ts
    else t :: setStatusFirst task_id status ts

/-- `TaskManager.update_task`: sets the status of the found task (any string
is accepted; the manager performs no validation) and returns it, or `None`. -/
def TaskManager.update_task (m : TaskManager) (task_id : Nat) (status : String) :
    TaskManager × Option Task :=
  match m.get_task task_id with
  | none => (m, none)
  | some t => (⟨setStatusFirst task_id status m.tasks, m.next_id⟩,
      some { t with status := status })

/-- Removes the first task with the given id, as `self.tasks.remove(task)`
does for the object `get_task` returned. -/
def removeFirstId (task_id : Nat) : List Task → List Task
  | [] => []
  | t :: ts => if t.id == task_id then ts else t :: removeFirstId task_id ts

/-- `TaskManager.delete_task`: removes the found task, reports success. -/
def TaskManager.delete_task (m : TaskManager) (task_id : Nat) :
    TaskManager × Bool :=
  match m.get_task task_id with
  | none => (m, false)
  | some _ => (⟨removeFirstId task_id m.tasks, m.next_id⟩, true)

/-- The three mutating store operations, for stating invariants over
arbitrary operation sequences. -/
inductive TaskOp where
  | add (plan_id : Nat) (title : String) (due_at : Int)
  | update (task_id : Nat) (status : String)
  | delete (task_id : Nat)
deriving DecidableEq

/-- Runs a sequence of operations, collecting the ids issued by `add_task`
in order. -/
def applyOps (m : TaskManager) : List TaskOp → TaskManager × List Nat
  | [] => (m, [])
  | TaskOp.add pid ttl due :: ops =>
    let r := m.add_task pid ttl due
    let rest := applyOps r.1 ops
    (rest.1, r.2 :: rest.2)
  | TaskOp.update tid s :: ops => applyOps (m.update_task tid s).1 ops
  | TaskOp.delete tid :: ops => applyOps (m.delete_task tid).1 ops

/-- Store invariant: stored ids strictly increase along the list and every
stored id is below the `next_id` counter. -/
def TaskManager.Inv (m : TaskManager) : Prop :=
  (m.tasks.map (·.id)).Pairwise (· < ·) ∧ ∀ t ∈ m.tasks, t.id < m.next_id

theorem setStatusFirst_map_id (tid : Nat) (s : String) (ts : List Task) :
    (setStatusFirst tid s ts).map (·.id) = ts.map (·.id) := by
  induction ts with
  | nil => rfl
  | cons t ts ih =>
    by_cases h : (t.id == tid) = true <;>
      simp [setStatusFirst, h, ih]

theorem removeFirstId_sublist (tid : Nat) (ts : List Task) :
    (removeFirstId tid ts).Sublist ts := by
  induction ts with
  | nil => exact List.Sublist.refl _
  | cons t ts ih =>
    by_cases h : (t.id == tid) = true
    · simp only [removeFirstId, h, if_true]
      exact List.sublist_cons_of_sublist t (List.Sublist.refl ts)
    · simp only [removeFirstId, h, if_false]
      exact List.Sublist.cons₂ t ih

theorem mem_setStatusFirst (tid : Nat) (s : String) (ts : List Task) :
    ∀ t ∈ setStatusFirst tid s ts, ∃ u ∈ ts, t.id = u.id ∧
      (t.status = u.status ∨ t.status = s) := by
  induction ts with
  | nil => intro t h; simp [setStatusFirst] at h
  | cons u ts ih =>
    intro t ht
    by_cases h : (u.id == tid) = true
    · simp only [setStatusFirst, h, if_true] at ht
      cases ht with
      | head => exact ⟨u, List.mem_cons_self u ts, rfl, Or.inr rfl⟩
      | tail _ ht => exact ⟨t, List.mem_cons_of_mem u ht, rfl, Or.inl rfl⟩
    · simp only [setStatusFirst, h, if_false] at ht
      cases ht with
      | head => exact ⟨u, List.mem_cons_self u ts, rfl, Or.inl rfl⟩
      | tail _ ht =>
        obtain ⟨v, hv, hid, hs⟩ := ih t ht
        exact ⟨v, List.mem_cons_of_mem u hv, hid, hs⟩

theorem Inv_init : TaskManager.Inv TaskManager.init := by
  constructor <;> simp [TaskManager.init]

theorem Inv_add (m : TaskManager) (hm : m.Inv) (pid : Nat) (ttl : String)
    (due : Int) : (m.add_task pid ttl due).1.Inv := by
  obtain ⟨h1, h2⟩ := hm
  constructor
  · simp only [TaskManager.add_task, List.map_append, List.map_cons, List.map_nil]
    rw [List.pairwise_append]
    refine ⟨h1, by simp, ?_⟩
    intro a ha b hb
    simp only [List.mem_map] at ha
    obtain ⟨t, ht, rfl⟩ := ha
    simp only [List.mem_cons, List.not_mem_nil, or_false] at hb
    subst hb
    exact h2 t ht
  · intro t ht
    simp only [TaskManager.add_task, List.mem_append, List.mem_cons,
      List.not_mem_nil, or_false] at ht
    rcases ht with ht | rfl
    · exact Nat.lt_succ_of_lt (h2 t ht)
    · exact Nat.lt_succ_self _

theorem Inv_update (m : TaskManager) (hm : m.Inv) (tid : Nat) (s : String) :
    (m.update_task tid s).1.Inv := by
  obtain ⟨h1, h2⟩ := hm
  unfold TaskManager.update_task
  cases hg : m.get_task tid with
  | none => exact ⟨h1, h2⟩
  | some t =>
    refine ⟨?_, ?_⟩
    · simpa only [setStatusFirst_map_id] using h1
    · intro u hu
      obtain ⟨v, hv, hid, _⟩ := mem_setStatusFirst tid s m.tasks u hu
      rw [hid]
      exact h2 v hv

theorem Inv_delete (m : TaskManager) (hm : m.Inv) (tid : Nat) :
    (m.delete_task tid).1.Inv := by
  obtain ⟨h1, h2⟩ := hm
  unfold TaskManager.delete_task
  cases hg : m.get_task tid with
  | none => exact ⟨h1, h2⟩
  | some t =>
    refine ⟨?_, ?_⟩
    · exact h1.sublist ((removeFirstId_sublist tid m.tasks).map (·.id))
    · intro u hu
      exact h2 u ((removeFirstId_sublist tid m.tasks).mem hu)

theorem next_id_update (m : TaskManager) (tid : Nat) (s : String) :
    (m.update_task tid s).1.next_id = m.next_id := by
  unfold TaskManager.update_task
  cases m.get_task tid <;> rfl

theorem next_id_delete (m : TaskManager) (tid : Nat) :
    (m.delete_task tid).1.next_id = m.next_id := by
  unfold TaskManager.delete_task
  cases m.get_task tid <;> rfl

theorem applyOps_spec (ops : List TaskOp) :
    ∀ m : TaskManager, m.Inv →
      (applyOps m ops).1.Inv ∧ m.next_id ≤ (applyOps m ops).1.next_id ∧
      (applyOps m ops).2.Pairwise (· < ·) ∧
      ∀ i ∈ (applyOps m ops).2, m.next_id ≤ i ∧ i < (applyOps m ops).1.next_id := by
  induction ops with
  | nil => intro m hm; exact ⟨hm, Nat.le_refl _, List.Pairwise.nil, by simp [applyOps]⟩
  | cons op ops ih =>
    intro m hm
    cases op with
    | add pid ttl due =>
      obtain ⟨ih1, ih2, ih3, ih4⟩ := ih _ (Inv_add m hm pid ttl due)
      have hnext : (m.add_task pid ttl due).1.next_id = m.next_id + 1 := rfl
      rw [hnext] at ih2 ih4
      refine ⟨ih1, by simpa only [applyOps] using Nat.le_of_succ_le ih2, ?_, ?_⟩
      · simp only [applyOps]
        exact List.Pairwise.cons
          (fun i hi => Nat.lt_of_succ_le (ih4 i hi).1) ih3
      · intro i hi
        simp only [applyOps, List.mem_cons] at hi
        rcases hi with rfl | hi
        · exact ⟨Nat.le_refl _, Nat.lt_of_succ_le ih2⟩
        · exact ⟨Nat.le_of_succ_le (ih4 i hi).1, (ih4 i hi).2⟩
    | update tid s =>
      obtain ⟨ih1, ih2, ih3, ih4⟩ := ih _ (Inv_update m hm tid s)
      rw [next_id_update] at ih2 ih4
      exact ⟨ih1, ih2, ih3, ih4⟩
    | delete tid =>
      obtain ⟨ih1, ih2, ih3, ih4⟩ := ih _ (Inv_delete m hm tid)
      rw [next_id_delete] at ih2 ih4
      exact ⟨ih1, ih2, ih3, ih4⟩

/-- C10: starting from the fresh store, after any sequence of add, update and
delete operations all stored task ids are pairwise strictly increasing (hence
distinct), every stored id is below the `next_id` counter, and the ids issued
by the adds, in issue order, strictly increase — so an id freed by a delete is
never reissued by a later add. -/
theorem task_ids_unique_never_reused (ops : List TaskOp) :
    (((applyOps TaskManager.init ops).1.tasks.map (·.id)).Pairwise (· < ·)) ∧
    (∀ t ∈ (applyOps TaskManager.init ops).1.tasks,
      t.id < (applyOps TaskManager.init ops).1.next_id) ∧
    ((applyOps TaskManager.init ops).2.Pairwise (· < ·)) := by
  obtain ⟨⟨h1, h2⟩, _, h3, _⟩ := applyOps_spec ops TaskManager.init Inv_init
  exact ⟨h1, h2, h3⟩

/-! ### Task status validity (claim C6) -/

/-- The status set the data model declares. -/
def validStatus (s : String) : Prop :=
  s = "pending" ∨ s = "in_progress" ∨ s = "completed"

instance (s : String) : Decidable (validStatus s) := by
  unfold validStatus; infer_instance

/-- An operation keeps statuses in the declared set when it is not an update,
or is an update carrying a status from the set. -/
def opStatusValid : TaskOp → Prop
  | TaskOp.update _ s => validStatus s
  | _ => True

instance (op : TaskOp) : Decidable (opStatusValid op) := by
  cases op <;> (unfold opStatusValid; infer_instance)

theorem statuses_valid_aux (ops : List TaskOp)
    (hops : ∀ op ∈ ops, opStatusValid op) :
    ∀ m : TaskManager, (∀ t ∈ m.tasks, validStatus t.status) →
      ∀ t ∈ (applyOps m ops).1.tasks, validStatus t.status := by
  induction ops with
  | nil => intro m hm; exact hm
  | cons op ops ih =>
    have hops' : ∀ op' ∈ ops, opStatusValid op' :=
      fun op' h => hops op' (List.mem_cons_of_mem op h)
    intro m hm
    cases op with
    | add pid ttl due =>
      refine ih hops' _ ?_
      intro t ht
      simp only [TaskManager.add_task, List.mem_append, List.mem_cons,
        List.not_mem_nil, or_false] at ht
      rcases ht with ht | ht
      · exact hm t ht
      · rw [ht]; exact Or.inl rfl
    | update tid s =>
      have hs : validStatus s := hops (TaskOp.update tid s) (List.mem_cons_self _ _)
      refine ih hops' _ ?_
      intro t ht
      unfold TaskManager.update_task at ht
      cases hg : TaskManager.get_task m tid with
      | none => rw [hg] at ht; exact hm t ht
      | some u =>
        rw [hg] at ht
        obtain ⟨v, hv, _, hstat⟩ := mem_setStatusFirst tid s m.tasks t ht
        rcases hstat with hstat | hstat
        · rw [hstat]; exact hm v hv
        · rw [hstat]; exact hs
    | delete tid =>
      refine ih hops' _ ?_
      intro t ht
      unfold TaskManager.delete_task at ht
      cases hg : TaskManager.get_task m tid with
      | none => rw [hg] at ht; exact hm t ht
      | some u =>
        rw [hg] at ht
        exact hm t ((removeFirstId_sublist tid m.tasks).mem ht)

/-- C6 counterexample: `update_task` performs no validation, so a single
update with the status string `"cancelled"` leaves a stored task whose status
is outside `{pending, in_progress, completed}`. -/
theorem status_escapes_counterexample :
    ((applyOps TaskManager.init
        [TaskOp.add 1 "t" 0, TaskOp.update 1 "cancelled"]).1.tasks.map
          (·.status)) = ["cancelled"] ∧ ¬ validStatus "cancelled" := by
  constructor
  · rfl
  · decide

/-- C6 amended: every task is created with status `pending`, and after any
sequence of add, update and delete operations in which each update carries a
status from `{pending, in_progress, completed}`, every stored task's status
lies in that set (the manager itself does not validate update statuses). -/
theorem task_statuses_valid (ops : List TaskOp)
    (hops : ∀ op ∈ ops, opStatusValid op) :
    (∀ t ∈ (applyOps TaskManager.init ops).1.tasks, validStatus t.status) ∧
    ∀ (m : TaskManager) (pid : Nat) (ttl : String) (due : Int),
      ∃ task, (m.add_task pid ttl due).1.tasks = m.tasks ++ [task] ∧
        task.status = "pending" := by
  refine ⟨statuses_valid_aux ops hops TaskManager.init (by simp [TaskManager.init]), ?_⟩
  intro m pid ttl due
  exact ⟨_, rfl, rfl⟩

/-- Witness for C6's amended theorem on a concrete operation sequence. -/
theorem task_statuses_valid_witness :
    (∀ op ∈ [TaskOp.add 1 "a" 0, TaskOp.update 1 "completed",
        TaskOp.add 1 "b" 5, TaskOp.delete 1], opStatusValid op) ∧
    ((∀ t ∈ (applyOps TaskManager.init [TaskOp.add 1 "a" 0,
        TaskOp.update 1 "completed", TaskOp.add 1 "b" 5,
        TaskOp.delete 1]).1.tasks, validStatus t.status) ∧
      ∀ (m : TaskManager) (pid : Nat) (ttl : String) (due : Int),
        ∃ task, (m.add_task pid ttl due).1.tasks = m.tasks ++ [task] ∧
          task.status = "pending") :=
  ⟨by decide, task_statuses_valid _ (by decide)⟩

/-! ### Plan-to-task materialisation (`ai_agent/agent.py`,
`LifeHackAgent._create_tasks_from_plan`) -/

/-- A plan step as stored in `SAMPLE_PLANS` (`backend/plans.py`). -/
structure PlanStep where
  step_id : Nat
  title : String
  details : String
  due_offset : String
deriving DecidableEq

/-- A generated plan (`backend/plans.py`, `generate_plan`). -/
structure Plan where
  plan_id : Nat
  problem_id : Nat
  summary : String
  steps : List PlanStep
deriving DecidableEq

/-- The loop body of `_create_tasks_from_plan`: for each step, parse the
offset (a parse failure raises, modelled as `none`), compute
`due_time = base_time + offset_minutes`, call `add_task`, then re-fetch the
task by id and append the fetched value (an `Option`, as `get_task` can in
principle return `None`). -/
def createTasksSteps (plan_id : Nat) (base_time : Int) :
    TaskManager → List PlanStep → Option (TaskManager × List (Option Task))
  | m, [] => some (m, [])
  | m, step :: rest =>
    match parse_due_offset step.due_offset with
    | none => none
    | some offset_minutes =>
      let due_time := base_time + offset_minutes
      let r := m.add_task plan_id step.title due_time
      let task := r.1.get_task r.2
      match createTasksSteps plan_id base_time r.1 rest with
      | none => none
      | some (m2, ts) => some (m2, task :: ts)

/-- `_create_tasks_from_plan` (`ai_agent/agent.py`, lines 86-114):
`base_time = datetime.now()` is read once (passed here explicitly) and shared
by every step of the plan. -/
def create_tasks_from_plan (m : TaskManager) (plan : Plan) (base_time : Int) :
    Option (TaskManager × List (Option Task)) :=
  createTasksSteps plan.plan_id base_time m plan.steps

theorem get_task_add (m : TaskManager) (hm : m.Inv) (pid : Nat) (ttl : String)
    (due : Int) :
    (m.add_task pid ttl due).1.get_task (m.add_task pid ttl due).2 =
      some ⟨m.next_id, pid, ttl, due, "pending"⟩ := by
  obtain ⟨_, h2⟩ := hm
  unfold TaskManager.add_task TaskManager.get_task
  rw [List.find?_append]
  have hnone : m.tasks.find? (fun t => t.id == m.next_id) = none := by
    rw [List.find?_eq_none]
    intro t ht
    simp only [beq_eq_false_iff_ne, ne_eq, beq_iff_eq]
    exact Nat.ne_of_lt (h2 t ht)
  rw [hnone]
  simp [List.find?]

/-- C1: materialising a plan's tasks uses one shared batch-creation instant:
when every step offset parses, the conversion succeeds and produces one task
per step, in step order, whose due timestamp is exactly the shared
`base_time` plus the parsed offset minutes of its source step (and whose
title, plan id and `pending` status come from that step). -/
theorem create_tasks_shared_instant (m : TaskManager) (plan : Plan)
    (base_time : Int) (hm : m.Inv)
    (hparse : ∀ step ∈ plan.steps, (parse_due_offset step.due_offset).isSome) :
    ∃ m2 tasks, create_tasks_from_plan m plan base_time = some (m2, tasks) ∧
      tasks.length = plan.steps.length ∧
      ∀ (i : Nat) (step : PlanStep), plan.steps[i]? = some step →
        ∃ off task, parse_due_offset step.due_offset = some off ∧
          tasks[i]? = some (some task) ∧
          task.due_at = base_time + off ∧
          task.title = step.title ∧
          task.plan_id = plan.plan_id ∧
          task.status = "pending" := by
  unfold create_tasks_from_plan
  suffices h : ∀ (steps : List PlanStep) (m : TaskManager), m.Inv →
      (∀ step ∈ steps, (parse_due_offset step.due_offset).isSome) →
      ∃ m2 tasks, createTasksSteps plan.plan_id base_time m steps = some (m2, tasks) ∧
        tasks.length = steps.length ∧
        ∀ (i : Nat) (step : PlanStep), steps[i]? = some step →
          ∃ off task, parse_due_offset step.due_offset = some off ∧
            tasks[i]? = some (some task) ∧
            task.due_at = base_time + off ∧
            task.title = step.title ∧
            task.plan_id = plan.plan_id ∧
            task.status = "pending" by
    exact h plan.steps m hm hparse
  intro steps
  induction steps with
  | nil =>
    intro m _ _
    exact ⟨m, [], rfl, rfl, by intro i step h; simp at h⟩
  | cons step rest ih =>
    intro m hmInv hp
    have hstep : (parse_due_offset step.due_offset).isSome :=
      hp step (List.mem_cons_self _ _)
    obtain ⟨off, hoff⟩ := Option.isSome_iff_exists.mp hstep
    obtain ⟨m2, tasks, hrec, hlen, hidx⟩ :=
      ih (m.add_task plan.plan_id step.title (base_time + off)).1
        (Inv_add m hmInv _ _ _)
        (fun s hs => hp s (List.mem_cons_of_mem step hs))
    refine ⟨m2,
      (m.add_task plan.plan_id step.title (base_time + off)).1.get_task
        (m.add_task plan.plan_id step.title (base_time + off)).2 :: tasks,
      ?_, by simp [hlen], ?_⟩
    · simp only [createTasksSteps, hoff, hrec]
    · intro i s hs
      cases i with
      | zero =>
        simp only [List.getElem?_cons_zero, Option.some.injEq] at hs
        subst hs
        refine ⟨off, ⟨m.next_id, plan.plan_id, step.title, base_time + off,
          "pending"⟩, hoff, ?_, rfl, rfl, rfl, rfl⟩
        simp only [List.getElem?_cons_zero, Option.some.injEq]
        exact get_task_add m hmInv plan.plan_id step.title (base_time + off)
      | succ i =>
        simp only [List.getElem?_cons_succ] at hs ⊢
        exact hidx i s hs

/-- The three-step plan with offsets `[0h, 1h, 2h]` from the claim. -/
def plan012 : Plan :=
  ⟨ 1, 4, "three steps",
    [⟨1, "a", "da", "0h"⟩, ⟨2, "b", "db", "1h"⟩, ⟨3, "c", "dc", "2h"⟩] ⟩

/-- Witness for C1 at the `[0h, 1h, 2h]` plan and base instant 1000: the
hypotheses hold, the theorem applies, and evaluating the conversion shows the
three tasks due exactly 0, 60 and 120 minutes after the shared instant, in
step order. -/
theorem create_tasks_shared_instant_witness :
    TaskManager.Inv TaskManager.init ∧
    (∀ step ∈ plan012.steps, (parse_due_offset step.due_offset).isSome) ∧
    (∃ m2 tasks, create_tasks_from_plan TaskManager.init plan012 1000 =
        some (m2, tasks) ∧
      tasks.length = plan012.steps.length ∧
      ∀ (i : Nat) (step : PlanStep), plan012.steps[i]? = some step →
        ∃ off task, parse_due_offset step.due_offset = some off ∧
          tasks[i]? = some (some task) ∧
          task.due_at = 1000 + off ∧
          task.title = step.title ∧
          task.plan_id = plan012.plan_id ∧
          task.status = "pending") ∧
    (create_tasks_from_plan TaskManager.init plan012 1000).map
        (fun r => r.2.map (Option.map (fun t => t.due_at)))
      = some [some 1000, some 1060, some 1120] :=
  ⟨⟨by decide, by decide⟩,
    by decide,
    create_tasks_shared_instant TaskManager.init plan012 1000
      ⟨by decide, by decide⟩ (by decide),
    by decide⟩

/-! ### Dashboard aggregation (`ai_agent/agent.py`,
`LifeHackAgent.get_user_dashboard`) -/

/-- The `task_summary` block of the dashboard. -/
structure TaskSummary where
  total_tasks : Nat
  pending_tasks : Nat
  completed_tasks : Nat
  overdue_tasks : Nat
deriving DecidableEq

/-- The dashboard aggregate (the `user_id` and `generated_at` metadata fields
carry no task information and are omitted). -/
structure Dashboard where
  task_summary : TaskSummary
  upcoming_tasks : List Task
  recent_completions : List Task
  recommendations : List String
deriving DecidableEq

/-- `task.get("completed_at", "")`: no code path ever stores a
`completed_at` key in a task dictionary (`add_task` builds the dictionary
without it and `update_task` only rewrites `status`), so the lookup always
returns the default `""`. -/
def completed_at_key (_ : Task) : String := ""

/-- `get_user_dashboard` (`ai_agent/agent.py`, lines 227-273).  Python's
`sorted` is a stable sort; with `reverse=True` it is stable sort by the
flipped comparison, embedded as `mergeSort` with `le a b := key b ≤ key a`. -/
def get_user_dashboard (m : TaskManager) (now : Int) : Dashboard :=
  let all_tasks := m.tasks
  let pending_tasks := all_tasks.filter (fun t => t.status == "pending")
  let completed_tasks := all_tasks.filter (fun t => t.status == "completed")
  let overdue_tasks := pending_tasks.filter (fun t => decide (t.due_at < now))
  let recommendations :=
    (if overdue_tasks.isEmpty then [] else
      ["You have " ++ toString overdue_tasks.length ++
        " overdue tasks. Consider rescheduling or completing them."]) ++
    (if pending_tasks.length > 10 then
      ["You have many pending tasks. Consider prioritizing the most important ones."]
     else []) ++
    (if pending_tasks.isEmpty then
      ["Great job! You have no pending tasks. Consider creating a new plan for your next goal."]
     else [])
  { task_summary :=
      { total_tasks := all_tasks.length
        pending_tasks := pending_tasks.length
        completed_tasks := completed_tasks.length
        overdue_tasks := overdue_tasks.length }
    upcoming_tasks :=
      (pending_tasks.mergeSort (fun a b => decide (a.due_at ≤ b.due_at))).take 5
    recent_completions :=
      (completed_tasks.mergeSort
        (fun a b => decide (completed_at_key b ≤ completed_at_key a))).take 3
    recommendations := recommendations }

/-- C4: the dashboard's overdue count equals the number of stored tasks that
are pending and due strictly before the evaluation instant; in particular,
with one pending task due yesterday (1440 minutes before `now = 0`) and one
pending task due tomorrow, the overdue count is 1. -/
theorem dashboard_overdue_count (m : TaskManager) (now : Int) :
    (get_user_dashboard m now).task_summary.overdue_tasks =
      (m.tasks.filter
        (fun t => t.status == "pending" && decide (t.due_at < now))).length ∧
    (get_user_dashboard
        ⟨[⟨1, 1, "due yesterday", -1440, "pending"⟩,
          ⟨2, 1, "due tomorrow", 1440, "pending"⟩], 3⟩
        0).task_summary.overdue_tasks = 1 := by
  constructor
  · simp only [get_user_dashboard, List.filter_filter]
    apply congrArg List.length
    apply List.filter_congr
    intro t _
    rw [Bool.and_comm]
  · decide

/-- Four tasks added and then completed in id order 1, 2, 3, 4: task 4 is the
most recently completed. -/
def opsCompleteFour : List TaskOp :=
  [TaskOp.add 1 "a" 10, TaskOp.add 1 "b" 20, TaskOp.add 1 "c" 30,
   TaskOp.add 1 "d" 40,
   TaskOp.update 1 "completed", TaskOp.update 2 "completed",
   TaskOp.update 3 "completed", TaskOp.update 4 "completed"]

/-- Any relation holds pairwise on any list when it holds for every pair. -/
theorem pairwise_of_true {α : Type} {R : α → α → Prop}
    (h : ∀ a b, R a b) : ∀ l : List α, l.Pairwise R
  | [] => List.Pairwise.nil
  | a :: l => List.Pairwise.cons (fun b _ => h a b) (pairwise_of_true h l)

/-- The descending stable sort on the constant default `completed_at` key is
the identity. -/
theorem mergeSort_completed_key (l : List Task) :
    l.mergeSort (fun a b => decide (completed_at_key b ≤ completed_at_key a)) = l :=
  List.mergeSort_of_sorted (pairwise_of_true (fun a b => by simp [completed_at_key]) l)

/-- C5 counterexample: after completing tasks 1, 2, 3, 4 in that order, the
most recently completed task (id 4) is absent from `recent_completions` even
though the list has three slots and four tasks are completed: the code sorts
on the never-present `completed_at` key, so it returns the first three
completed tasks in storage order, not the three most recently completed. -/
theorem dashboard_recent_completions_counterexample :
    ((get_user_dashboard (applyOps TaskManager.init opsCompleteFour).1
        0).recent_completions.map (·.id) = [1, 2, 3]) ∧
    (((applyOps TaskManager.init opsCompleteFour).1.tasks.filter
        (fun t => t.status == "completed")).length = 4) ∧
    (4 ∉ (get_user_dashboard (applyOps TaskManager.init opsCompleteFour).1
        0).recent_completions.map (·.id)) := by
  refine ⟨?_, ?_, ?_⟩
  · simp only [get_user_dashboard, mergeSort_completed_key]
    decide
  · decide
  · simp only [get_user_dashboard, mergeSort_completed_key]
    decide

/-- C5 amended: the dashboard's upcoming list consists of pending tasks
sorted by due timestamp, holding the five soonest-due ones (every pending
task it omits is due no earlier than every task it holds); its
recent-completions list is the first three completed tasks in storage order
(the `completed_at` key is never set, so the stable descending sort on the
constant default key preserves storage order); the dashboard is a pure
projection of the store. -/
theorem dashboard_projections (m : TaskManager) (now : Int) :
    ((get_user_dashboard m now).upcoming_tasks.length =
        min 5 (m.tasks.filter (fun t => t.status == "pending")).length) ∧
    ((get_user_dashboard m now).upcoming_tasks.Pairwise
        (fun a b => a.due_at ≤ b.due_at)) ∧
    (∃ rest, ((get_user_dashboard m now).upcoming_tasks ++ rest).Perm
        (m.tasks.filter (fun t => t.status == "pending")) ∧
      ∀ u ∈ (get_user_dashboard m now).upcoming_tasks, ∀ r ∈ rest,
        u.due_at ≤ r.due_at) ∧
    ((get_user_dashboard m now).recent_completions =
      (m.tasks.filter (fun t => t.status == "completed")).take 3) := by
  have htrans : ∀ a b c : Task, (decide (a.due_at ≤ b.due_at)) = true →
      (decide (b.due_at ≤ c.due_at)) = true →
      (decide (a.due_at ≤ c.due_at)) = true := by
    intro a b c hab hbc
    simp only [decide_eq_true_eq] at hab hbc ⊢
    omega
  have htotal : ∀ a b : Task, ((decide (a.due_at ≤ b.due_at)) ||
      (decide (b.due_at ≤ a.due_at))) = true := by
    intro a b
    simp only [Bool.or_eq_true, decide_eq_true_eq]
    omega
  have hsorted := List.sorted_mergeSort htrans htotal
    (m.tasks.filter (fun t => t.status == "pending"))
  have hperm := List.mergeSort_perm
    (m.tasks.filter (fun t => t.status == "pending"))
    (fun a b => decide (a.due_at ≤ b.due_at))
  refine ⟨?_, ?_, ?_, ?_⟩
  · simp only [get_user_dashboard]
    rw [List.length_take, hperm.length_eq]
  · simp only [get_user_dashboard]
    exact ((hsorted.sublist (List.take_sublist 5 _)).imp
      (fun h => decide_eq_true_eq.mp h))
  · refine ⟨(List.mergeSort
        (m.tasks.filter (fun t => t.status == "pending"))
        (fun a b => decide (a.due_at ≤ b.due_at))).drop 5, ?_, ?_⟩
    · simp only [get_user_dashboard]
      rw [List.take_append_drop]
      exact hperm
    · simp only [get_user_dashboard]
      intro u hu r hr
      have := (List.pairwise_append.mp
        (by rw [List.take_append_drop]; exact hsorted)).2.2 u hu r hr
      exact decide_eq_true_eq.mp this
  · simp only [get_user_dashboard]
    rw [mergeSort_completed_key]

/-! ### Automation orchestration (`ai_agent/agent.py`,
`LifeHackAgent.execute_automation`) -/

/-- An automation script: takes keyword arguments and returns a result or
raises (modelled as `Except.error` carrying the exception text `str(e)`). -/
abbrev Script := List (String × String) → Except String String

/-- The dictionary `execute_automation` returns: `result` is present on
success, `error` on failure (the `executed_at` clock read is omitted). -/
structure ExecutionResult where
  automation_type : String
  script_name : String
  parameters : List (String × String)
  result : Option String
  error : Option String
  status : String
deriving DecidableEq

/-- `execute_automation` (`ai_agent/agent.py`, lines 180-225).  The two
`ValueError`s for an unknown type or script are raised outside the
`try` block and propagate (top-level `Except.error`); the single call to the
registered script happens inside the `try` block, so an exception there is
caught and converted into a failure record.  The script is invoked exactly
once; no retry exists in the control flow. -/
def execute_automation (registry : List (String × List (String × Script)))
    (automation_type script_name : String)
    (kwargs : List (String × String)) : Except String ExecutionResult :=
  match registry.lookup automation_type with
  | none => Except.error ("Unknown automation type: " ++ automation_type)
  | some scripts =>
    match scripts.lookup script_name with
    | none => Except.error
        ("Unknown script: " ++ script_name ++ " for type " ++ automation_type)
    | some script_function =>
      match script_function kwargs with
      | Except.ok result =>
        Except.ok ⟨automation_type, script_name, kwargs, some result, none,
          "success"⟩
      | Except.error e =>
        Except.ok ⟨automation_type, script_name, kwargs, none, some e,
          "failed"⟩

/-- C7: for every registered automation script that raises when executed,
`execute_automation` catches the exception and returns a structured failure
record carrying the automation type, script name, parameters, error text and
status `"failed"` instead of propagating; the script is called exactly once
(the definition contains a single invocation and no retry path). -/
theorem execute_automation_catches
    (registry : List (String × List (String × Script)))
    (automation_type script_name : String) (kwargs : List (String × String))
    (scripts : List (String × Script)) (script : Script) (e : String)
    (hreg : registry.lookup automation_type = some scripts)
    (hscript : scripts.lookup script_name = some script)
    (herr : script kwargs = Except.error e) :
    execute_automation registry automation_type script_name kwargs =
      Except.ok ⟨automation_type, script_name, kwargs, none, some e,
        "failed"⟩ := by
  simp only [execute_automation, hreg, hscript, herr]

/-- A script that always raises. -/
def failingScript : Script := fun _ => Except.error "boom"

/-- A one-entry registry holding the failing script. -/
def registryWithFailure : List (String × List (String × Script)) :=
  [("budget", [("create_snapshot", failingScript)])]

/-- Witness for C7 on the concrete registry with a raising script. -/
theorem execute_automation_catches_witness :
    registryWithFailure.lookup "budget" =
        some [("create_snapshot", failingScript)] ∧
    [("create_snapshot", failingScript)].lookup "create_snapshot" =
        some failingScript ∧
    failingScript [] = Except.error "boom" ∧
    execute_automation registryWithFailure "budget" "create_snapshot" [] =
      Except.ok ⟨"budget", "create_snapshot", [], none, some "boom",
        "failed"⟩ :=
  ⟨rfl, rfl, rfl,
    execute_automation_catches registryWithFailure "budget" "create_snapshot"
      [] [("create_snapshot", failingScript)] failingScript "boom"
      rfl rfl rfl⟩

/-! ### Budget snapshot (`automation/runners/budget_automation.py`,
`create_budget_snapshot`) -/

/-- The budget snapshot dictionary (`date` and the optional `saved_to` file
path omitted; floats modelled as exact rationals). -/
structure Budget where
  income : ℚ
  housing : ℚ
  food : ℚ
  transport : ℚ
  utilities : ℚ
  entertainment : ℚ
  savings : ℚ
  other : ℚ
  total_expenses : ℚ
  balance : ℚ
  housing_percent : ℚ
  food_percent : ℚ
  transport_percent : ℚ
  utilities_percent : ℚ
  entertainment_percent : ℚ
  savings_percent : ℚ
  other_percent : ℚ
deriving DecidableEq

/-- `create_budget_snapshot` (lines 11-67): fixed percentage splits of the
income, derived totals and percentages.  The `save_to_file` branch only
writes a JSON file and records its name, so it is outside the model. -/
def create_budget_snapshot (income : ℚ) : Budget :=
  let housing := income * (3/10)
  let food := income * (15/100)
  let transport := income * (1/10)
  let utilities := income * (5/100)
  let entertainment := income * (1/10)
  let savings := income * (2/10)
  let other := income * (1/10)
  { income := income
    housing := housing
    food := food
    transport := transport
    utilities := utilities
    entertainment := entertainment
    savings := savings
    other := other
    total_expenses := housing + food + transport + utilities + entertainment + other
    balance := income -
      (housing + food + transport + utilities + entertainment + other + savings)
    housing_percent := housing / income * 100
    food_percent := food / income * 100
    transport_percent := transport / income * 100
    utilities_percent := utilities / income * 100
    entertainment_percent := entertainment / income * 100
    savings_percent := savings / income * 100
    other_percent := other / income * 100 }

/-- C8: for every positive income the seven category percentages of the
budget snapshot sum to exactly 100, and the balance (income minus expenses
plus savings) is exactly 0 (exact-rational abstraction of the float
arithmetic). -/
theorem budget_percentages_and_balance (income : ℚ) (h : 0 < income) :
    ((create_budget_snapshot income).housing_percent +
      (create_budget_snapshot income).food_percent +
      (create_budget_snapshot income).transport_percent +
      (create_budget_snapshot income).utilities_percent +
      (create_budget_snapshot income).entertainment_percent +
      (create_budget_snapshot income).savings_percent +
      (create_budget_snapshot income).other_percent = 100) ∧
    (create_budget_snapshot income).balance = 0 := by
  have h0 : income ≠ 0 := ne_of_gt h
  constructor
  · simp only [create_budget_snapshot]
    field_simp
    ring
  · simp only [create_budget_snapshot]
    ring

/-- Witness for C8 at income 3000. -/
theorem budget_percentages_and_balance_witness :
    (0 : ℚ) < 3000 ∧
    (((create_budget_snapshot 3000).housing_percent +
      (create_budget_snapshot 3000).food_percent +
      (create_budget_snapshot 3000).transport_percent +
      (create_budget_snapshot 3000).utilities_percent +
      (create_budget_snapshot 3000).entertainment_percent +
      (create_budget_snapshot 3000).savings_percent +
      (create_budget_snapshot 3000).other_percent = 100) ∧
    (create_budget_snapshot 3000).balance = 0) :=
  ⟨by norm_num, budget_percentages_and_balance 3000 (by norm_num)⟩

/-! ### Daily schedule (`automation/runners/productivity_automation.py`,
`create_daily_schedule`) -/

/-- One time block of the schedule: the block covers `[start_hour, end_hour)`
on the current date (ISO timestamps reduced to their hour components). -/
structure TimeBlock where
  start_hour : Nat
  end_hour : Nat
  duration_minutes : Nat
  task_type : String
  priority : String
  task : String
deriving DecidableEq

/-- The schedule dictionary (`date`, `created_at` and the optional
`saved_to` file path omitted). -/
structure Schedule where
  start_hour : Nat
  end_hour : Nat
  time_blocks : List TimeBlock
  total_work_hours : Nat
  deep_work_blocks : Nat
  break_blocks : Nat
deriving DecidableEq

/-- `create_daily_schedule` (lines 12-79): `for hour in range(start_hour,
end_hour)`, label each one-hour block by the fixed hour mapping
(`8 <= hour < 12` Deep Work/High, `hour == 12` Break/Medium,
`13 <= hour < 16` Collaboration/Medium, otherwise Wrap-up/Low).  Hours are
naturals, matching Python's `range` on the non-negative inputs used. -/
def create_daily_schedule (start_hour end_hour : Nat) : Schedule :=
  let time_blocks := (List.range' start_hour (end_hour - start_hour)).map
    (fun hour =>
      let tp : String × String :=
        if 8 ≤ hour ∧ hour < 12 then ("Deep Work", "High")
        else if hour = 12 then ("Break", "Medium")
        else if 13 ≤ hour ∧ hour < 16 then ("Collaboration", "Medium")
        else ("Wrap-up", "Low")
      { start_hour := hour
        end_hour := hour + 1
        duration_minutes := 60
        task_type := tp.1
        priority := tp.2
        task := "Scheduled " ++ tp.1 ++ " time" })
  { start_hour := start_hour
    end_hour := end_hour
    time_blocks := time_blocks
    total_work_hours := end_hour - start_hour
    deep_work_blocks :=
      (time_blocks.filter (fun b => b.task_type == "Deep Work")).length
    break_blocks :=
      (time_blocks.filter (fun b => b.task_type == "Break")).length }

/-- C9: the schedule for `start_hour = 8`, `end_hour = 18` has exactly 10
one-hour blocks; hours 8-11 are Deep Work with High priority, hour 12 is
Break, hours 13-15 are Collaboration, and the remaining hours 16-17 are
Wrap-up. -/
theorem daily_schedule_8_18 :
    (create_daily_schedule 8 18).time_blocks.length = 10 ∧
    (create_daily_schedule 8 18).time_blocks.map
        (fun b => (b.start_hour, b.task_type, b.priority)) =
      [(8, "Deep Work", "High"), (9, "Deep Work", "High"),
       (10, "Deep Work", "High"), (11, "Deep Work", "High"),
       (12, "Break", "Medium"), (13, "Collaboration", "Medium"),
       (14, "Collaboration", "Medium"), (15, "Collaboration", "Medium"),
       (16, "Wrap-up", "Low"), (17, "Wrap-up", "Low")] ∧
    (create_daily_schedule 8 18).time_blocks.all
      (fun b => b.duration_minutes == 60 && b.end_hour == b.start_hour + 1) = true := by
  refine ⟨?_, ?_, ?_⟩ <;> decide

end LifeHackAI
